import Mathlib

/-!
Verification of the `Erc20EventsIndexer` core of `safe-transaction-service`
(`src/safe_transaction_service/history/indexers/erc20_events_indexer.py`).

The development shallowly embeds the two methods the claims are about:

* `find_relevant_elements` (lines 49-97): the adaptive window-sizing logic
  around one remote fetch.  Block numbers and the window size
  (`block_process_limit`) are arbitrary-precision Python integers, embedded
  as `Int`; Python floor division `//` is `Int.fdiv`.  Elapsed wall-clock
  time (`time.time()` differences) is embedded as a rational number of
  seconds, passed as an explicit parameter.  `time.time()` is always a
  large positive float, so the truthiness test `if start:` is embedded as
  the condition under which `start` was assigned, namely that the requested
  range spanned a full window.  The remote call either returns a list of
  raw entries or raises `requests.HTTPError`/`ConnectionError`; both
  outcomes are an explicit `FetchResult` parameter.  Crucially, the
  `except` clause at line 73-74 neither returns nor re-raises: execution
  falls through to the tuning block (lines 76-90) and then reaches line 93,
  where the local `erc20_transfer_events` was never bound, so the method
  terminates with an `UnboundLocalError`.  The embedding records how the
  call terminates in `FindOutcome`.

* `process_elements` (lines 99-108): the normalisation/persistence
  pipeline.  Its argument is a Python `Iterable` that the body iterates
  twice (once at line 105 and once at line 107); `PyIterable` records
  whether the iterable is a one-shot iterator, which the first full
  iteration exhausts.  The collaborators that live in `..models`
  (not part of the sources here) are modelled from the spec:
  `create_or_update_from_tx_hashes` creates missing transaction rows and
  leaves existing ones in place; `from_decoded_event` decodes one raw
  entry, a malformed entry being a per-entry failure that is dropped;
  `bulk_create` with `ignore_conflicts=True` inserts rows whose
  `(transactionHash, logIndex)` key is absent, silently skips conflicting
  keys, and returns the newly created rows.  The durable store is the
  `Store` structure: the set of transaction rows (keyed by hash) and the
  set of event rows (keyed by `(transactionHash, logIndex)`).
-/

namespace SafeTxService

/-- One raw log entry as returned by the remote fetch: what the claims need
is its `transactionHash`, its `logIndex`, and whether the entry decodes into
a normalized transfer event (`malformed = true` means decoding fails).
Transaction hashes are embedded as `Nat`. -/
structure RawLogEntry where
  transactionHash : Nat
  logIndex : Nat
  malformed : Bool
deriving DecidableEq, Repr

/-- A decoded transfer event row, keyed by `(transactionHash, logIndex)`. -/
structure NormalizedEvent where
  transactionHash : Nat
  logIndex : Nat
deriving DecidableEq, Repr

/-- The durable store: transaction rows keyed by hash, and event rows keyed
by `(transactionHash, logIndex)`. -/
structure Store where
  txs : List Nat
  events : List NormalizedEvent
deriving DecidableEq, Repr

/-- A Python `Iterable` together with the fact of being a one-shot
iterator.  A `List`/`QuerySet`-like sequence (`oneShot = false`) yields its
items on every iteration; a generator/iterator (`oneShot = true`) yields
its items once and is exhausted afterwards. -/
structure PyIterable (α : Type) where
  items : List α
  oneShot : Bool
deriving DecidableEq, Repr

/-- The first full iteration over the iterable (line 105 of the source). -/
def firstPass {α : Type} (it : PyIterable α) : List α := it.items

/-- The second full iteration over the iterable (line 107 of the source):
a one-shot iterator was exhausted by the first pass and yields nothing. -/
def secondPass {α : Type} (it : PyIterable α) : List α :=
  if it.oneShot then [] else it.items

/-- Line 105: `OrderedDict.fromkeys(...)` deduplicates the listed keys
preserving first-seen order. -/
def orderedUniqueKeys (l : List Nat) : List Nat :=
  l.foldl (fun acc h => if h ∈ acc then acc else acc ++ [h]) []

/-- Modelled from the spec: `EthereumTx.objects.create_or_update_from_tx_hashes`
lives in `..models`, outside the given sources.  Per the spec it has
create-or-update semantics keyed by transaction hash: a missing hash gets a
new row, an existing row is updated in place and not re-created, so the set
of row keys gains exactly the missing hashes. -/
def create_or_update_from_tx_hashes (txs : List Nat) (hashes : List Nat) : List Nat :=
  hashes.foldl (fun acc h => if h ∈ acc then acc else acc ++ [h]) txs

/-- Modelled from the spec: `EthereumEvent.objects.from_decoded_event`
lives in `..models`, outside the given sources.  Per the spec it maps a raw
entry independently into a `NormalizedEvent`; a malformed entry is a
per-entry failure that is dropped from the batch rather than aborting it. -/
def from_decoded_event (e : RawLogEntry) : Option NormalizedEvent :=
  if e.malformed then none else some ⟨e.transactionHash, e.logIndex⟩

/-- Whether the store slice `store` already holds a row with the
`(transactionHash, logIndex)` key of `e`. -/
def hasKey (store : List NormalizedEvent) (e : NormalizedEvent) : Bool :=
  store.any fun x => x.transactionHash == e.transactionHash && x.logIndex == e.logIndex

/-- Modelled from the spec: `bulk_create(..., ignore_conflicts=True)` is the
durable store's bulk-insert-with-conflict-ignore primitive, specified only
at its interface.  Rows are inserted in order; a row whose unique key is
already present (in the store or earlier in the same batch) is silently
skipped; the newly created rows are returned. -/
def bulk_create (store : List NormalizedEvent) (evs : List NormalizedEvent) :
    List NormalizedEvent × List NormalizedEvent :=
  match evs with
  | [] => (store, [])
  | e :: rest =>
    if hasKey store e then bulk_create store rest
    else
      let p := bulk_create (store ++ [e]) rest
      (p.fst, e :: p.snd)

/-- Lines 99-108 of the source, `Erc20EventsIndexer.process_elements`:
line 105 iterates `events` once to collect the ordered duplicate-free
transaction hashes, line 106 upserts the referenced transactions, line 107
iterates `events` a second time to build the event rows (a malformed entry
being dropped per-entry, see `from_decoded_event`), and line 108
bulk-inserts them ignoring conflicts and returns the newly created rows. -/
def process_elements (db : Store) (events : PyIterable RawLogEntry) :
    Store × List NormalizedEvent :=
  let tx_hashes := orderedUniqueKeys ((firstPass events).map (·.transactionHash))
  let new_txs := create_or_update_from_tx_hashes db.txs tx_hashes
  let ethereum_events := (secondPass events).filterMap from_decoded_event
  let p := bulk_create db.events ethereum_events
  (⟨new_txs, p.fst⟩, p.snd)

/-- The tuning-relevant indexer state: `block_process_limit` (the current
window size) and `initial_block_process_limit` (set by the base class to the
configured default, 10000 here). -/
structure IndexerState where
  block_process_limit : Int
  initial_block_process_limit : Int
deriving DecidableEq, Repr

/-- Outcome of one remote `get_total_transfer_history` call: a list of raw
entries, or a `requests.HTTPError`/`ConnectionError`. -/
inductive FetchResult where
  | ok : List RawLogEntry → FetchResult
  | err : FetchResult
deriving DecidableEq, Repr

/-- How one call of `find_relevant_elements` terminates: a normal return of
the fetched entries, or an `UnboundLocalError` raised at line 93 when the
`except` clause swallowed the fetch error and left `erc20_transfer_events`
unbound. -/
inductive FindOutcome where
  | returns : List RawLogEntry → FindOutcome
  | unboundLocalError : FindOutcome
deriving DecidableEq, Repr

/-- Lines 76-90 of the source, the inline `block_process_limit` tuning on a
timed full-window query: `time_diff > 30` halves the limit (Python `//=`,
floor division), then an independent `if time_diff > 10` subtracts 10000,
with `elif` branches doubling when `time_diff < 2` and adding 10000 when
`time_diff < 5`. -/
def optimize_block_process_limit (limit : Int) (t : ℚ) : Int :=
  let l1 := if 30 < t then limit.fdiv 2 else limit
  if 10 < t then l1 - 10000
  else if t < 2 then l1 * 2
  else if t < 5 then l1 + 10000
  else l1

/-- Lines 49-97 of the source, `Erc20EventsIndexer.find_relevant_elements`,
given the outcome of the remote call and its elapsed time `t` in seconds.
`start` is assigned exactly when the requested range spans a full window
(line 63).  On a successful fetch the timed tuning runs and the entries are
returned.  On `HTTPError`/`ConnectionError` the limit is reset to the
initial default (line 74), but the handler falls through: the timed tuning
block still runs on the failed request's elapsed time, and line 93 then
raises `UnboundLocalError` because `erc20_transfer_events` was never
bound. -/
def find_relevant_elements (s : IndexerState) (from_block to_block : Int)
    (result : FetchResult) (t : ℚ) : IndexerState × FindOutcome :=
  match result with
  | .ok evs =>
    let s1 :=
      if to_block - from_block = s.block_process_limit then
        { s with block_process_limit := optimize_block_process_limit s.block_process_limit t }
      else s
    (s1, .returns evs)
  | .err =>
    let s1 : IndexerState := { s with block_process_limit := s.initial_block_process_limit }
    let s2 :=
      if to_block - from_block = s.block_process_limit then
        { s1 with block_process_limit := optimize_block_process_limit s1.block_process_limit t }
      else s1
    (s2, .unboundLocalError)

theorem create_or_update_cons (txs : List Nat) (a : Nat) (tl : List Nat) :
    create_or_update_from_tx_hashes txs (a :: tl)
      = create_or_update_from_tx_hashes (if a ∈ txs then txs else txs ++ [a]) tl := rfl

theorem mem_create_or_update_left (hashes : List Nat) (txs : List Nat) (h : Nat)
    (hm : h ∈ txs) : h ∈ create_or_update_from_tx_hashes txs hashes := by
  induction hashes generalizing txs with
  | nil => exact hm
  | cons a tl ih =>
    rw [create_or_update_cons]
    apply ih
    split
    · exact hm
    · exact List.mem_append_left _ hm

theorem mem_create_or_update_self (hashes : List Nat) (txs : List Nat) (h : Nat)
    (hm : h ∈ hashes) : h ∈ create_or_update_from_tx_hashes txs hashes := by
  induction hashes generalizing txs with
  | nil => cases hm
  | cons a tl ih =>
    rw [create_or_update_cons]
    rcases List.mem_cons.mp hm with rfl | hm'
    · apply mem_create_or_update_left
      split
      · assumption
      · exact List.mem_append_right _ (List.mem_singleton.mpr rfl)
    · exact ih _ hm'

theorem create_or_update_nop (hashes : List Nat) (txs : List Nat)
    (hall : ∀ h ∈ hashes, h ∈ txs) : create_or_update_from_tx_hashes txs hashes = txs := by
  induction hashes with
  | nil => rfl
  | cons a tl ih =>
    rw [create_or_update_cons, if_pos (hall a (List.mem_cons_self a tl))]
    exact ih fun h hh => hall h (List.mem_cons_of_mem _ hh)

theorem hasKey_append (s t : List NormalizedEvent) (e : NormalizedEvent) :
    hasKey (s ++ t) e = (hasKey s e || hasKey t e) := by
  simp [hasKey, List.any_append]

theorem bulk_create_fst_eq (evs : List NormalizedEvent) (store : List NormalizedEvent) :
    (bulk_create store evs).fst = store ++ (bulk_create store evs).snd := by
  induction evs generalizing store with
  | nil => simp [bulk_create]
  | cons e rest ih =>
    by_cases hc : hasKey store e = true
    · simp [bulk_create, hc, ih store]
    · simp [bulk_create, hc, ih (store ++ [e])]

theorem hasKey_bulk_mono (evs : List NormalizedEvent) (store : List NormalizedEvent)
    (e : NormalizedEvent) (h : hasKey store e = true) :
    hasKey (bulk_create store evs).fst e = true := by
  rw [bulk_create_fst_eq, hasKey_append, h, Bool.true_or]

theorem hasKey_bulk_of_mem (evs : List NormalizedEvent) (store : List NormalizedEvent)
    (e : NormalizedEvent) (hm : e ∈ evs) :
    hasKey (bulk_create store evs).fst e = true := by
  induction evs generalizing store with
  | nil => cases hm
  | cons e' rest ih =>
    rcases List.mem_cons.mp hm with rfl | hm'
    · by_cases hc : hasKey store e = true
      · simp only [bulk_create, if_pos hc]
        exact hasKey_bulk_mono rest store e hc
      · simp only [bulk_create, if_neg hc]
        apply hasKey_bulk_mono
        rw [hasKey_append, Bool.or_eq_true]
        right
        simp [hasKey]
    · by_cases hc : hasKey store e' = true
      · simp only [bulk_create, if_pos hc]
        exact ih store hm'
      · simp only [bulk_create, if_neg hc]
        exact ih (store ++ [e']) hm'

theorem bulk_create_nop (evs : List NormalizedEvent) (store : List NormalizedEvent)
    (hall : ∀ e ∈ evs, hasKey store e = true) : bulk_create store evs = (store, []) := by
  induction evs with
  | nil => rfl
  | cons e rest ih =>
    simp only [bulk_create, if_pos (hall e (List.mem_cons_self e rest))]
    exact ih fun e' he' => hall e' (List.mem_cons_of_mem _ he')

theorem bulk_create_fresh (evs : List NormalizedEvent) (store : List NormalizedEvent)
    (e : NormalizedEvent) (hm : e ∈ (bulk_create store evs).snd) :
    hasKey store e = false := by
  induction evs generalizing store with
  | nil => simp [bulk_create] at hm
  | cons e' rest ih =>
    by_cases hc : hasKey store e' = true
    · simp only [bulk_create, if_pos hc] at hm
      exact ih store hm
    · simp only [bulk_create, if_neg hc] at hm
      rcases List.mem_cons.mp hm with rfl | hm'
      · exact Bool.of_not_eq_true hc
      · have h2 := ih (store ++ [e']) hm'
        rw [hasKey_append, Bool.or_eq_false_iff] at h2
        exact h2.1

/-- C2: the claim says a transient fetch error is recovered locally and
`find_relevant_elements` returns without raising.  Evaluating the code at a
concrete failing input shows otherwise: with `block_process_limit = 10000`,
a partial-window request over blocks 0-100 whose fetch raises
`ConnectionError` after 1 second makes the call terminate with an
`UnboundLocalError` at line 93 (the `except` clause neither returns nor
re-raises, and `erc20_transfer_events` is never bound), even though the
tuning state was reset to the initial default. -/
theorem C2_transient_error_raises_unbound_local :
    (find_relevant_elements ⟨10000, 10000⟩ 0 100 FetchResult.err 1).snd
        = FindOutcome.unboundLocalError ∧
    (find_relevant_elements ⟨10000, 10000⟩ 0 100 FetchResult.err 1).fst
        = ⟨10000, 10000⟩ := by
  constructor <;> rfl

/-- C4: the claim says that after a transient fetch error the window size
equals the configured initial size regardless of the elapsed time of the
failed request.  Evaluating the code at a concrete failing input shows
otherwise: from `block_process_limit = initial = 10000`, a full-window
request over blocks 0-10000 that fails after 1 second first resets the
limit to 10000, but the handler falls through and the timed tuning block
doubles it, so the call terminates with `block_process_limit = 20000`. -/
theorem C4_error_reset_overridden_by_tuning :
    (find_relevant_elements ⟨10000, 10000⟩ 0 10000 FetchResult.err 1).fst.block_process_limit
        = 20000 ∧ ((20000 : Int) ≠ 10000) := by
  constructor
  · rfl
  · decide

/-- C3 counterexample: the claim says the window size never becomes zero or
negative.  From `block_process_limit = 10000`, a successful full-window
query over blocks 0-10000 with an elapsed time of 32 seconds leaves
`block_process_limit = -5000 < 0`: the halving rule and the 10000-block
decrement both fire and no floor is applied. -/
theorem C3_floor_counterexample :
    (find_relevant_elements ⟨10000, 10000⟩ 0 10000 (FetchResult.ok []) 32).fst.block_process_limit
      < 0 := by
  decide

/-- C3 amended: the code enforces no configured minimum window size at all;
the only lower bound on one tuning update from a nonnegative limit `l` is
the arithmetic one, `l.fdiv 2 - 10000`, which is negative whenever
`l < 20000` — so the window size can become zero or negative. -/
theorem C3_amended_arithmetic_lower_bound (l : Int) (t : ℚ) (h : 0 ≤ l) :
    l.fdiv 2 - 10000 ≤ optimize_block_process_limit l t := by
  have hfd : l.fdiv 2 ≤ l := by
    rw [Int.fdiv_eq_ediv _ (by norm_num)]
    exact Int.ediv_le_self _ h
  unfold optimize_block_process_limit
  dsimp only
  split_ifs <;> linarith

/-- Witness for C3 amended at `l = 10000`, `t = 32`. -/
theorem C3_amended_arithmetic_lower_bound_witness :
    (0 : Int) ≤ 10000 ∧
      (10000 : Int).fdiv 2 - 10000 ≤ optimize_block_process_limit 10000 32 :=
  ⟨by decide, C3_amended_arithmetic_lower_bound 10000 32 (by decide)⟩

/-- C5 counterexample: the claim says that with window size 10000 and a
successful full-window query taking 32 seconds the next window size is
exactly 5000 (only the halving rule).  The code disagrees at that exact
input. -/
theorem C5_halving_only_counterexample :
    ¬ ((find_relevant_elements ⟨10000, 10000⟩ 0 10000 (FetchResult.ok []) 32).fst.block_process_limit
        = 5000) := by
  decide

/-- C5 amended: with window size 10000 and a successful full-window query
taking 32 seconds the next window size is -5000: the `> 30s` halving test
and the `> 10s` decrement test are two independent `if` statements, not a
first-match-wins chain, so both apply (10000 // 2 = 5000, then
5000 - 10000 = -5000). -/
theorem C5_both_rules_apply :
    (find_relevant_elements ⟨10000, 10000⟩ 0 10000 (FetchResult.ok []) 32).fst.block_process_limit
      = -5000 := by
  decide

/-- C6 counterexample: the claim says every successful full-window query
with elapsed time in (5s, 30s] decrements the window by 10000 (floored at a
minimum).  From `block_process_limit = 50000`, a successful full-window
query taking 6 seconds leaves the window unchanged at 50000, not 40000. -/
theorem C6_decrement_band_counterexample :
    (find_relevant_elements ⟨50000, 10000⟩ 0 50000 (FetchResult.ok []) 6).fst.block_process_limit
        = 50000 ∧ ((50000 : Int) ≠ 50000 - 10000) := by
  constructor
  · rfl
  · decide

/-- C6 amended: on a successful full-window query the 10000-block decrement
applies exactly when the elapsed time is in (10s, 30s], with no floor; for
elapsed times in (5s, 10s] the window size is left unchanged. -/
theorem C6_decrement_band_amended :
    (∀ (s : IndexerState) (a b : Int) (evs : List RawLogEntry) (t : ℚ),
        b - a = s.block_process_limit → 10 < t → t ≤ 30 →
        (find_relevant_elements s a b (FetchResult.ok evs) t).fst.block_process_limit
          = s.block_process_limit - 10000) ∧
    (∀ (s : IndexerState) (a b : Int) (evs : List RawLogEntry) (t : ℚ),
        b - a = s.block_process_limit → 5 < t → t ≤ 10 →
        (find_relevant_elements s a b (FetchResult.ok evs) t).fst.block_process_limit
          = s.block_process_limit) := by
  constructor
  · intro s a b evs t h1 h2 h3
    have h30 : ¬ (30 < t) := by linarith
    simp [find_relevant_elements, h1, optimize_block_process_limit, h30, h2]
  · intro s a b evs t h1 h2 h3
    have h30 : ¬ (30 < t) := by linarith
    have h10 : ¬ (10 < t) := by linarith
    have hlt2 : ¬ (t < 2) := by linarith
    have hlt5 : ¬ (t < 5) := by linarith
    simp [find_relevant_elements, h1, optimize_block_process_limit, h30, h10, hlt2, hlt5]

/-- Witness for C6 amended: from window size 20000, a 20-second full-window
query yields 10000, and a 7-second full-window query leaves 20000. -/
theorem C6_decrement_band_amended_witness :
    ((20000 : Int) - 0 = (20000 : Int) ∧ (10 : ℚ) < 20 ∧ (20 : ℚ) ≤ 30 ∧
      (find_relevant_elements ⟨20000, 10000⟩ 0 20000 (FetchResult.ok []) 20).fst.block_process_limit
        = 20000 - 10000) ∧
    ((20000 : Int) - 0 = (20000 : Int) ∧ (5 : ℚ) < 7 ∧ (7 : ℚ) ≤ 10 ∧
      (find_relevant_elements ⟨20000, 10000⟩ 0 20000 (FetchResult.ok []) 7).fst.block_process_limit
        = 20000) :=
  ⟨⟨by decide, by decide, by decide,
      C6_decrement_band_amended.1 ⟨20000, 10000⟩ 0 20000 [] 20 (by decide) (by decide) (by decide)⟩,
    ⟨by decide, by decide, by decide,
      C6_decrement_band_amended.2 ⟨20000, 10000⟩ 0 20000 [] 7 (by decide) (by decide) (by decide)⟩⟩

/-- C7: a successful query over a partial (head-capped) window — one where
`to_block - from_block` differs from the current `block_process_limit` —
leaves the whole indexer state, in particular `block_process_limit`,
unchanged, whatever the elapsed time. -/
theorem C7_partial_window_leaves_state_unchanged (s : IndexerState) (a b : Int)
    (evs : List RawLogEntry) (t : ℚ) (h : b - a ≠ s.block_process_limit) :
    (find_relevant_elements s a b (FetchResult.ok evs) t).fst = s := by
  simp [find_relevant_elements, h]

/-- Witness for C7: a 100-block query against a 10000-block window. -/
theorem C7_partial_window_leaves_state_unchanged_witness :
    ((100 : Int) - 0 ≠ (10000 : Int)) ∧
      (find_relevant_elements ⟨10000, 10000⟩ 0 100 (FetchResult.ok []) 40).fst
        = ⟨10000, 10000⟩ :=
  ⟨by decide, C7_partial_window_leaves_state_unchanged ⟨10000, 10000⟩ 0 100 [] 40 (by decide)⟩

/-- C1: persistence is idempotent.  For every durable store and every batch
of raw log entries, running `process_elements` a second time on the same
batch leaves the durable store exactly as the first run left it — an event
row whose `(transactionHash, logIndex)` key is already present is silently
skipped, and referenced transactions are created-or-updated, never
re-created — and the second run returns no newly created rows. -/
theorem C1_persistence_idempotent (db : Store) (it : PyIterable RawLogEntry) :
    (process_elements (process_elements db it).fst it).fst = (process_elements db it).fst ∧
    (process_elements (process_elements db it).fst it).snd = [] := by
  have htx :
      create_or_update_from_tx_hashes
          (create_or_update_from_tx_hashes db.txs
            (orderedUniqueKeys ((firstPass it).map (·.transactionHash))))
          (orderedUniqueKeys ((firstPass it).map (·.transactionHash)))
        = create_or_update_from_tx_hashes db.txs
            (orderedUniqueKeys ((firstPass it).map (·.transactionHash))) :=
    create_or_update_nop _ _ fun h hh => mem_create_or_update_self _ _ _ hh
  have hev :
      bulk_create (bulk_create db.events ((secondPass it).filterMap from_decoded_event)).fst
          ((secondPass it).filterMap from_decoded_event)
        = ((bulk_create db.events ((secondPass it).filterMap from_decoded_event)).fst, []) :=
    bulk_create_nop _ _ fun e he => hasKey_bulk_of_mem _ _ _ he
  constructor
  · simp only [process_elements]
    rw [htx, hev]
  · simp only [process_elements]
    rw [hev]

/-- C8: a malformed entry is a per-entry failure, not a batch failure.  For
every batch split as `pre ++ bad :: post` with `bad` malformed,
`process_elements` persists exactly the event rows it would persist for
`pre ++ post` and returns the same newly created rows: only the malformed
entry is dropped, and the rest of the batch is still processed. -/
theorem C8_malformed_entry_dropped (db : Store) (pre post : List RawLogEntry)
    (bad : RawLogEntry) (hbad : bad.malformed = true) :
    (process_elements db ⟨pre ++ bad :: post, false⟩).fst.events
        = (process_elements db ⟨pre ++ post, false⟩).fst.events ∧
    (process_elements db ⟨pre ++ bad :: post, false⟩).snd
        = (process_elements db ⟨pre ++ post, false⟩).snd := by
  have hnone : from_decoded_event bad = none := by
    simp [from_decoded_event, hbad]
  have hfm : (pre ++ bad :: post).filterMap from_decoded_event
      = (pre ++ post).filterMap from_decoded_event := by
    simp [List.filterMap_append, List.filterMap_cons, hnone]
  constructor <;> simp [process_elements, secondPass, hfm]

/-- Witness for C8: in an empty store, the batch with the malformed middle
entry persists the same event rows as the batch without it. -/
theorem C8_malformed_entry_dropped_witness :
    (RawLogEntry.mk 2 0 true).malformed = true ∧
    ((process_elements ⟨[], []⟩
          ⟨[RawLogEntry.mk 1 0 false] ++ RawLogEntry.mk 2 0 true :: [RawLogEntry.mk 3 1 false],
            false⟩).fst.events
        = (process_elements ⟨[], []⟩
            ⟨[RawLogEntry.mk 1 0 false] ++ [RawLogEntry.mk 3 1 false], false⟩).fst.events ∧
      (process_elements ⟨[], []⟩
          ⟨[RawLogEntry.mk 1 0 false] ++ RawLogEntry.mk 2 0 true :: [RawLogEntry.mk 3 1 false],
            false⟩).snd
        = (process_elements ⟨[], []⟩
            ⟨[RawLogEntry.mk 1 0 false] ++ [RawLogEntry.mk 3 1 false], false⟩).snd) :=
  ⟨rfl, C8_malformed_entry_dropped ⟨[], []⟩ [RawLogEntry.mk 1 0 false] [RawLogEntry.mk 3 1 false]
      (RawLogEntry.mk 2 0 true) rfl⟩

/-- C9: `process_elements` returns exactly the event rows this call newly
inserted: the resulting event store is the old one extended by precisely
the returned rows, and no returned row's `(transactionHash, logIndex)` key
was already present before the call — so a skipped conflict is never
returned and the return value is not a full echo of the input. -/
theorem C9_returns_exactly_newly_inserted (db : Store) (it : PyIterable RawLogEntry) :
    (process_elements db it).fst.events = db.events ++ (process_elements db it).snd ∧
    ((process_elements db it).snd).all (fun e => !(hasKey db.events e)) = true := by
  constructor
  · simp only [process_elements]
    exact bulk_create_fst_eq _ _
  · simp only [List.all_eq_true]
    intro e he
    have hf : hasKey db.events e = false :=
      bulk_create_fresh ((secondPass it).filterMap from_decoded_event) db.events e he
    simp [hf]

/-- C10: `process_elements` iterates its argument twice.  When the argument
is a one-shot iterator, the first pass (line 105) exhausts it, so the
referenced transactions are still upserted but the second pass (line 107)
builds no event rows: the event store is untouched and the empty list is
returned.  The two passes see the same entries exactly for a re-iterable
sequence, and differ on any nonempty one-shot iterator. -/
theorem C10_one_shot_iterator_double_iteration :
    (∀ (db : Store) (l : List RawLogEntry),
        process_elements db ⟨l, true⟩
          = (⟨create_or_update_from_tx_hashes db.txs
                (orderedUniqueKeys (l.map (·.transactionHash))), db.events⟩, [])) ∧
    (∀ (l : List RawLogEntry),
        secondPass (⟨l, false⟩ : PyIterable RawLogEntry) = firstPass ⟨l, false⟩) ∧
    (∀ (e : RawLogEntry) (l : List RawLogEntry),
        secondPass (⟨e :: l, true⟩ : PyIterable RawLogEntry) ≠ firstPass ⟨e :: l, true⟩) := by
  refine ⟨fun db l => ?_, fun l => rfl, fun e l => ?_⟩
  · simp [process_elements, firstPass, secondPass, bulk_create]
  · simp [firstPass, secondPass]

end SafeTxService
